import Mathlib

/-!
Shallow embedding of the SMIL animation-spec compiler (`smil-utilities.ts`):
the easing table, the animation validator, the directive compiler and the
per-element aggregator, together with theorems checking the specification's
claims against this embedding.

JavaScript numbers are modelled by `JSNumber`: a rational value (used by the
validator's comparisons) paired with the string the number prints as (used
when attribute values are rendered); float formatting itself is not modelled,
the printed form is carried as data.  JavaScript truthiness is modelled
explicitly where the source branches on it: an absent field and the empty
string are falsy, every array (including the empty one) is truthy.
-/

/-- A JavaScript number: its rational value and its ToString rendering. -/
structure JSNumber where
  val : Rat
  str : String
deriving DecidableEq, Repr

/-- The closed set of easing names (`EasingType` in `types.ts`). -/
inductive EasingType
  | linear
  | ease
  | easeIn
  | easeOut
  | easeInOut
  | bounce
  | elastic
  | back
  | cubicBezier
deriving DecidableEq, Repr

/-- Easing curves mapped to SMIL keySplines (`EASING_MAP`). -/
def EASING_MAP : EasingType → String
  | .linear => "0 0 1 1"
  | .ease => "0.25 0.1 0.25 1"
  | .easeIn => "0.42 0 1 1"
  | .easeOut => "0 0 0.58 1"
  | .easeInOut => "0.42 0 0.58 1"
  | .bounce => "0.68 -0.55 0.265 1.55"
  | .elastic => "0.175 0.885 0.32 1.275"
  | .back => "0.68 -0.55 0.265 1.55"
  | .cubicBezier => "0.25 0.1 0.25 1"

/-- The `easing` field is either a single easing name or an array of them. -/
inductive JSEasing
  | single (e : EasingType)
  | arr (es : List EasingType)
deriving DecidableEq, Repr

/-- Convert easing name(s) to a keySplines string (`easingToKeySplines`);
an array maps each entry through the table and joins with "; ". -/
def easingToKeySplines : JSEasing → String
  | .arr es => String.intercalate "; " (es.map EASING_MAP)
  | .single e => EASING_MAP e

/-- The closed set of trigger event kinds (`TriggerType`). -/
inductive TriggerType
  | click
  | mouseenter
  | mouseleave
  | focus
  | blur
  | load
deriving DecidableEq, Repr

/-- The event name a trigger kind renders as. -/
def TriggerType.eventName : TriggerType → String
  | .click => "click"
  | .mouseenter => "mouseenter"
  | .mouseleave => "mouseleave"
  | .focus => "focus"
  | .blur => "blur"
  | .load => "load"

/-- A structured trigger (`AnimationTrigger`): an event kind plus a reference
to an external target node.  The reference is modelled by the identifier the
target node carries, which is all the compiler could ever read from it. -/
structure AnimationTrigger where
  type : TriggerType
  targetId : String
deriving DecidableEq, Repr

/-- The `begin` field: a literal expression string or a structured trigger. -/
inductive BeginField
  | str (s : String)
  | trigger (t : AnimationTrigger)
deriving DecidableEq, Repr

/-- The closed set of explicit calc modes (`CalcMode`). -/
inductive CalcMode
  | linear
  | discrete
  | paced
  | spline
deriving DecidableEq, Repr

/-- Rendering of a calc mode. -/
def CalcMode.str : CalcMode → String
  | .linear => "linear"
  | .discrete => "discrete"
  | .paced => "paced"
  | .spline => "spline"

/-- The fill modes (`FillMode`). -/
inductive FillMode
  | freeze
  | remove
deriving DecidableEq, Repr

/-- Rendering of a fill mode. -/
def FillMode.str : FillMode → String
  | .freeze => "freeze"
  | .remove => "remove"

/-- The restart behaviours. -/
inductive RestartMode
  | always
  | whenNotActive
  | never
deriving DecidableEq, Repr

/-- Rendering of a restart behaviour. -/
def RestartMode.str : RestartMode → String
  | .always => "always"
  | .whenNotActive => "whenNotActive"
  | .never => "never"

/-- The `repeatCount` field: a number or the literal "indefinite". -/
inductive RepeatCountV
  | num (n : JSNumber)
  | indefinite
deriving DecidableEq, Repr

/-- Rendering of a repeat count. -/
def RepeatCountV.str : RepeatCountV → String
  | .num n => n.str
  | .indefinite => "indefinite"

/-- One property's animation spec (`AnimatedProperty` in `types.ts`).  The
source's `from` and `to` fields are renamed `fromVal` and `toVal` because
`from` is reserved in Lean.  The `id` field is read by the compiler even
though the published interface omits it; it is optional here so that the
runtime behaviour on a missing id can be stated. -/
structure AnimatedProperty where
  id : Option String := none
  fromVal : Option JSNumber := none
  toVal : Option JSNumber := none
  values : Option (List JSNumber) := none
  duration : String := "1s"
  begin : Option BeginField := none
  keyTimes : Option (List JSNumber) := none
  easing : Option JSEasing := none
  keySplines : Option String := none
  calcMode : Option CalcMode := none
  repeatCount : Option RepeatCountV := none
  fill : Option FillMode := none
  restart : Option RestartMode := none
deriving DecidableEq, Repr

/-- The structured validation failure kinds raised by the validator, plus the
kind the aggregator uses when wrapping a non-validation failure. -/
inductive VErrorKind
  | easingLengthMismatch
  | keyTimesLengthMismatch
  | keyTimesOutOfRange
  | keyTimesNotAscending
  | keyTimesMustStartZero
  | keyTimesMustEndOne
  | missingValuesOrEndpoints
  | generationFailure
deriving DecidableEq, Repr

/-- An `AnimationValidationError`: the failure kind plus the offending
property name and owning element tag it is parameterized by. -/
structure AnimationValidationError where
  kind : VErrorKind
  property : String
  element : String
deriving DecidableEq, Repr

/-- True when `easing` is an array whose length differs from
`values.length - 1`; the subtraction is over the integers, as in JS. -/
def easingMismatch (vs : List JSNumber) : Option JSEasing → Bool
  | some (.arr es) => decide ((es.length : Int) ≠ (vs.length : Int) - 1)
  | _ => false

/-- The validator's keyTimes loop: each entry must lie in [0,1], and each
entry after the first must be strictly greater than the previous one; the
two checks are interleaved per index, range first, exactly as in the source
loop.  `prev` is the previous entry's value, absent at the first index. -/
def keyTimesLoop (property element : String) :
    Option Rat → List JSNumber → Except AnimationValidationError Unit
  | _, [] => .ok ()
  | prev, k :: rest =>
    if k.val < 0 ∨ 1 < k.val then
      .error ⟨.keyTimesOutOfRange, property, element⟩
    else
      match prev with
      | some p =>
        if k.val ≤ p then
          .error ⟨.keyTimesNotAscending, property, element⟩
        else
          keyTimesLoop property element (some k.val) rest
      | none => keyTimesLoop property element (some k.val) rest

/-- JS strict-inequality test `l[i] !== q` between an array element and a
number: an out-of-bounds access yields undefined, and `undefined !== q`
is true. -/
def jsIndexNeq (l : List JSNumber) (i : Nat) (q : Rat) : Bool :=
  match l[i]? with
  | some k => decide (k.val ≠ q)
  | none => true

/-- Validate an animation configuration (`validateAnimation`).  The checks
run in source order: the `values` block (easing-array length, keyTimes
length, the keyTimes loop, first-must-be-0, last-must-be-1) only when
`values` is present (any array, the empty one included, is truthy), then the
final values-or-endpoints check, which fires only when `values` is absent. -/
def validateAnimation (property : String) (animation : AnimatedProperty)
    (element : String) : Except AnimationValidationError Unit :=
  let valuesBlock : Except AnimationValidationError Unit :=
    match animation.values with
    | none => .ok ()
    | some vs =>
      if easingMismatch vs animation.easing then
        .error ⟨.easingLengthMismatch, property, element⟩
      else
        match animation.keyTimes with
        | none => .ok ()
        | some kts =>
          if kts.length ≠ vs.length then
            .error ⟨.keyTimesLengthMismatch, property, element⟩
          else
            match keyTimesLoop property element none kts with
            | .error e => .error e
            | .ok () =>
              if jsIndexNeq kts 0 0 then
                .error ⟨.keyTimesMustStartZero, property, element⟩
              else if jsIndexNeq kts (kts.length - 1) 1 then
                .error ⟨.keyTimesMustEndOne, property, element⟩
              else .ok ()
  match valuesBlock with
  | .error e => .error e
  | .ok () =>
    if animation.values.isNone && (animation.fromVal.isNone || animation.toVal.isNone) then
      .error ⟨.missingValuesOrEndpoints, property, element⟩
    else .ok ()

/-- Convert a trigger to a SMIL begin attribute value
(`triggerToBeginValue`): the supplied identifier, a dot, the event name. -/
def triggerToBeginValue (trigger : AnimationTrigger) (targetElementId : String) : String :=
  targetElementId ++ "." ++ trigger.type.eventName

/-- One emitted attribute: the key and the value of a `key="value"` token. -/
structure Attr where
  key : String
  value : String
deriving DecidableEq, Repr

/-- Render one attribute as a `key="value"` token. -/
def Attr.render (a : Attr) : String := a.key ++ "=\"" ++ a.value ++ "\""

/-- JS template interpolation of a possibly-undefined string: an absent
value prints as the literal text "undefined". -/
def jsStr : Option String → String
  | some s => s
  | none => "undefined"

/-- JS truthiness of an optional string field: absent and "" are falsy. -/
def truthyStr : Option String → Bool
  | some s => !(s == "")
  | none => false

/-- Numbers joined by ";" as JS `Array.prototype.join(';')` renders them. -/
def joinNums (ns : List JSNumber) : String :=
  String.intercalate ";" (ns.map JSNumber.str)

/-- The configuration handed to the directive compiler (`SMILConfig`). -/
structure SMILConfig where
  element : String
  property : String
  animation : AnimatedProperty
  elementId : Option String := none
deriving DecidableEq, Repr

/-- Values-or-endpoints attributes: `values` joined by ";" when present,
otherwise `from` and `to`, each only if defined. -/
def valuesAttrs (a : AnimatedProperty) : List Attr :=
  match a.values with
  | some vs => [⟨"values", joinNums vs⟩]
  | none =>
    (match a.fromVal with
     | some f => [⟨"from", f.str⟩]
     | none => [])
    ++ (match a.toVal with
        | some t => [⟨"to", t.str⟩]
        | none => [])

/-- Begin attribute: a truthy literal string passes through; a structured
trigger is resolved against the config's `elementId` (the owning element's
identifier), interpolated as JS would interpolate it. -/
def beginAttrs (config : SMILConfig) : List Attr :=
  match config.animation.begin with
  | some (.str s) => if s == "" then [] else [⟨"begin", s⟩]
  | some (.trigger t) => [⟨"begin", triggerToBeginValue t (jsStr config.elementId)⟩]
  | none => []

/-- KeyTimes attribute: emitted verbatim, joined by ";", when present. -/
def keyTimesAttrs (a : AnimatedProperty) : List Attr :=
  match a.keyTimes with
  | some kts => [⟨"keyTimes", joinNums kts⟩]
  | none => []

/-- Spline attributes: a truthy raw `keySplines` is emitted with spline
mode; otherwise a present `easing` is converted and emitted with spline
mode. -/
def splineAttrs (a : AnimatedProperty) : List Attr :=
  if truthyStr a.keySplines then
    [⟨"keySplines", a.keySplines.getD ""⟩, ⟨"calcMode", "spline"⟩]
  else
    match a.easing with
    | some e => [⟨"keySplines", easingToKeySplines e⟩, ⟨"calcMode", "spline"⟩]
    | none => []

/-- Explicit calcMode attribute, emitted only when neither a truthy
`keySplines` nor an `easing` already set the mode. -/
def calcModeAttrs (a : AnimatedProperty) : List Attr :=
  match a.calcMode with
  | some cm =>
    if !truthyStr a.keySplines && a.easing.isNone then [⟨"calcMode", cm.str⟩] else []
  | none => []

/-- RepeatCount attribute, emitted whenever the field is defined. -/
def repeatAttrs (a : AnimatedProperty) : List Attr :=
  match a.repeatCount with
  | some rc => [⟨"repeatCount", rc.str⟩]
  | none => []

/-- Fill attribute, emitted when the field is present. -/
def fillAttrs (a : AnimatedProperty) : List Attr :=
  match a.fill with
  | some f => [⟨"fill", f.str⟩]
  | none => []

/-- Restart attribute, emitted when the field is present. -/
def restartAttrs (a : AnimatedProperty) : List Attr :=
  match a.restart with
  | some r => [⟨"restart", r.str⟩]
  | none => []

/-- The full ordered attribute set the directive compiler pushes
(`generateSMILAnimation`'s `attributes` array, in push order). -/
def smilAttributes (config : SMILConfig) : List Attr :=
  [⟨"id", jsStr config.animation.id⟩,
   ⟨"attributeName", config.property⟩,
   ⟨"dur", config.animation.duration⟩]
  ++ valuesAttrs config.animation
  ++ beginAttrs config
  ++ keyTimesAttrs config.animation
  ++ splineAttrs config.animation
  ++ calcModeAttrs config.animation
  ++ repeatAttrs config.animation
  ++ fillAttrs config.animation
  ++ restartAttrs config.animation

/-- A failure as JavaScript surfaces it: a structured validation error, or
any other thrown value, carried as its message text. -/
inductive JSError
  | validation (e : AnimationValidationError)
  | other (msg : String)
deriving DecidableEq, Repr

/-- Generate one SMIL animate element (`generateSMILAnimation`): validate,
then serialize the attribute set into a self-closing element string. -/
def generateSMILAnimation (config : SMILConfig) : Except JSError String :=
  match validateAnimation config.property config.animation config.element with
  | .error e => .error (.validation e)
  | .ok () =>
    .ok ("<animate " ++ String.intercalate " " ((smilAttributes config).map Attr.render) ++ " />")

/-- The aggregator's catch handler: a failure that already is an
`AnimationValidationError` is rethrown unchanged; any other failure is
wrapped into one carrying the entry's property name and element tag. -/
def wrapAggError (property element : String) : JSError → AnimationValidationError
  | .validation e => e
  | .other _ => ⟨.generationFailure, property, element⟩

/-- Generate all animations for an element (`generateElementAnimations`):
iterate the {property, spec} entries in order, compile each, collect the
directive strings; the first failure aborts the remainder, re-wrapped by
`wrapAggError` so the caller only sees validation errors. -/
def generateElementAnimations (element : String)
    (animations : List (String × AnimatedProperty)) (elementId : String) :
    Except JSError (List String) :=
  match animations with
  | [] => .ok []
  | (property, animation) :: rest =>
    match generateSMILAnimation ⟨element, property, animation, some elementId⟩ with
    | .error e => .error (.validation (wrapAggError property element e))
    | .ok s =>
      match generateElementAnimations element rest elementId with
      | .error e => .error e
      | .ok l => .ok (s :: l)

/-!
Helper predicates and lemmas about the validator, shared by the theorems
below.
-/

/-- Strict ascent of a keyTimes list, threaded from an optional previous
value; `ascendsFrom none kts` says each entry of `kts` after the first is
strictly greater than its predecessor. -/
def ascendsFrom : Option Rat → List JSNumber → Bool
  | _, [] => true
  | none, k :: rest => ascendsFrom (some k.val) rest
  | some p, k :: rest => decide (p < k.val) && ascendsFrom (some k.val) rest

/-- Attribute-key test used to select attributes out of a directive. -/
def Attr.hasKey (k : String) (a : Attr) : Bool := a.key == k

/-- An interpolation attribute: a keySplines or a calcMode token. -/
def interpAttr (a : Attr) : Bool := a.key == "keySplines" || a.key == "calcMode"

/-- The keyTimes loop succeeds exactly when every entry is in [0,1] and the
entries ascend strictly from the threaded previous value. -/
theorem keyTimesLoop_ok_iff (property element : String) (kts : List JSNumber) :
    ∀ prev, keyTimesLoop property element prev kts = .ok () ↔
      ((∀ k ∈ kts, 0 ≤ k.val ∧ k.val ≤ 1) ∧ ascendsFrom prev kts = true) := by
  induction kts with
  | nil => intro prev; simp [keyTimesLoop, ascendsFrom]
  | cons k rest ih =>
    intro prev
    by_cases hr : k.val < 0 ∨ 1 < k.val
    · have hmem : ¬ (∀ x ∈ k :: rest, 0 ≤ x.val ∧ x.val ≤ 1) := by
        intro hall
        rcases hall k (by simp) with ⟨h0, h1⟩
        rcases hr with h | h
        · exact absurd h (not_lt.mpr h0)
        · exact absurd h (not_lt.mpr h1)
      cases prev <;>
        · simp only [keyTimesLoop, if_pos hr]
          constructor
          · intro h; exact absurd h (by simp)
          · rintro ⟨hall, -⟩; exact absurd hall hmem
    · have hb : 0 ≤ k.val ∧ k.val ≤ 1 :=
        ⟨not_lt.mp (fun h => hr (Or.inl h)), not_lt.mp (fun h => hr (Or.inr h))⟩
      cases prev with
      | none =>
        simp only [keyTimesLoop, if_neg hr]
        rw [ih (some k.val)]
        simp only [ascendsFrom, List.mem_cons]
        constructor
        · rintro ⟨hall, hasc⟩
          refine ⟨?_, hasc⟩
          rintro x (rfl | hx)
          · exact hb
          · exact hall x hx
        · rintro ⟨hall, hasc⟩
          exact ⟨fun x hx => hall x (Or.inr hx), hasc⟩
      | some p =>
        simp only [keyTimesLoop, if_neg hr]
        by_cases hp : k.val ≤ p
        · simp only [if_pos hp]
          constructor
          · intro h; exact absurd h (by simp)
          · rintro ⟨-, hasc⟩
            simp only [ascendsFrom, Bool.and_eq_true, decide_eq_true_eq] at hasc
            exact absurd hasc.1 (not_lt.mpr hp)
        · simp only [if_neg hp]
          rw [ih (some k.val)]
          simp only [ascendsFrom, List.mem_cons, Bool.and_eq_true, decide_eq_true_eq]
          constructor
          · rintro ⟨hall, hasc⟩
            refine ⟨?_, lt_of_not_le hp, hasc⟩
            rintro x (rfl | hx)
            · exact hb
            · exact hall x hx
          · rintro ⟨hall, -, hasc⟩
            exact ⟨fun x hx => hall x (Or.inr hx), hasc⟩

/-- Any error the keyTimes loop raises is an out-of-range or a
not-ascending failure, carrying the given property and element. -/
theorem keyTimesLoop_error_kinds (property element : String) (kts : List JSNumber) :
    ∀ prev err, keyTimesLoop property element prev kts = .error err →
      err = ⟨.keyTimesOutOfRange, property, element⟩ ∨
      err = ⟨.keyTimesNotAscending, property, element⟩ := by
  induction kts with
  | nil => intro prev err h; simp [keyTimesLoop] at h
  | cons k rest ih =>
    intro prev err h
    by_cases hr : k.val < 0 ∨ 1 < k.val
    · cases prev <;>
        · simp only [keyTimesLoop, if_pos hr, Except.error.injEq] at h
          exact Or.inl h.symm
    · cases prev with
      | none =>
        simp only [keyTimesLoop, if_neg hr] at h
        exact ih (some k.val) err h
      | some p =>
        simp only [keyTimesLoop, if_neg hr] at h
        by_cases hp : k.val ≤ p
        · simp only [if_pos hp, Except.error.injEq] at h
          exact Or.inr h.symm
        · simp only [if_neg hp] at h
          exact ih (some k.val) err h

/-- An out-of-range failure from the loop pinpoints an entry outside
[0,1]. -/
theorem keyTimesLoop_outOfRange_sound (property element : String) (kts : List JSNumber) :
    ∀ prev, keyTimesLoop property element prev kts
        = .error ⟨.keyTimesOutOfRange, property, element⟩ →
      ∃ k ∈ kts, k.val < 0 ∨ 1 < k.val := by
  induction kts with
  | nil => intro prev h; simp [keyTimesLoop] at h
  | cons k rest ih =>
    intro prev h
    by_cases hr : k.val < 0 ∨ 1 < k.val
    · exact ⟨k, by simp, hr⟩
    · cases prev with
      | none =>
        simp only [keyTimesLoop, if_neg hr] at h
        obtain ⟨x, hx, hout⟩ := ih (some k.val) h
        exact ⟨x, by simp [hx], hout⟩
      | some p =>
        simp only [keyTimesLoop, if_neg hr] at h
        by_cases hp : k.val ≤ p
        · simp [if_pos hp] at h
        · simp only [if_neg hp] at h
          obtain ⟨x, hx, hout⟩ := ih (some k.val) h
          exact ⟨x, by simp [hx], hout⟩

/-- A not-ascending failure from the loop refutes strict ascent. -/
theorem keyTimesLoop_notAscending_sound (property element : String) (kts : List JSNumber) :
    ∀ prev, keyTimesLoop property element prev kts
        = .error ⟨.keyTimesNotAscending, property, element⟩ →
      ascendsFrom prev kts = false := by
  induction kts with
  | nil => intro prev h; simp [keyTimesLoop] at h
  | cons k rest ih =>
    intro prev h
    by_cases hr : k.val < 0 ∨ 1 < k.val
    · cases prev <;>
        · simp only [keyTimesLoop, if_pos hr, Except.error.injEq] at h
          exact absurd h.symm (by simp)
    · cases prev with
      | none =>
        simp only [keyTimesLoop, if_neg hr] at h
        simpa [ascendsFrom] using ih (some k.val) h
      | some p =>
        simp only [keyTimesLoop, if_neg hr] at h
        by_cases hp : k.val ≤ p
        · simp [ascendsFrom, not_lt.mpr hp]
        · simp only [if_neg hp] at h
          simp [ascendsFrom, ih (some k.val) h]

/-- A filter that rejects the values/from/to keys drops the whole
values-or-endpoints section. -/
theorem valuesAttrs_filter_nil (p : Attr → Bool) (a : AnimatedProperty)
    (hv : ∀ v, p ⟨"values", v⟩ = false) (hf : ∀ v, p ⟨"from", v⟩ = false)
    (ht : ∀ v, p ⟨"to", v⟩ = false) : (valuesAttrs a).filter p = [] := by
  rcases hvv : a.values with - | vs <;> rcases hfv : a.fromVal with - | f <;>
    rcases htv : a.toVal with - | t <;>
    simp [valuesAttrs, hvv, hfv, htv, hv, hf, ht]

/-- A filter that rejects the begin key drops the begin section. -/
theorem beginAttrs_filter_nil (p : Attr → Bool) (config : SMILConfig)
    (hb : ∀ v, p ⟨"begin", v⟩ = false) : (beginAttrs config).filter p = [] := by
  rcases hbv : config.animation.begin with - | bf
  · simp [beginAttrs, hbv]
  · rcases bf with s | t
    · by_cases hs : s == ""
      · simp [beginAttrs, hbv, hs]
      · simp [beginAttrs, hbv, hs, hb]
    · simp [beginAttrs, hbv, hb]

/-- A filter that rejects the keyTimes key drops the keyTimes section. -/
theorem keyTimesAttrs_filter_nil (p : Attr → Bool) (a : AnimatedProperty)
    (hk : ∀ v, p ⟨"keyTimes", v⟩ = false) : (keyTimesAttrs a).filter p = [] := by
  rcases hkv : a.keyTimes with - | kts <;> simp [keyTimesAttrs, hkv, hk]

/-- A filter that rejects the keySplines and calcMode keys drops the spline
section. -/
theorem splineAttrs_filter_nil (p : Attr → Bool) (a : AnimatedProperty)
    (hks : ∀ v, p ⟨"keySplines", v⟩ = false) (hcm : ∀ v, p ⟨"calcMode", v⟩ = false) :
    (splineAttrs a).filter p = [] := by
  by_cases ht : truthyStr a.keySplines
  · simp [splineAttrs, ht, hks, hcm]
  · rcases hev : a.easing with - | e <;> simp [splineAttrs, hev, ht, hks, hcm]

/-- A filter that rejects the calcMode key drops the explicit-calcMode
section. -/
theorem calcModeAttrs_filter_nil (p : Attr → Bool) (a : AnimatedProperty)
    (hcm : ∀ v, p ⟨"calcMode", v⟩ = false) : (calcModeAttrs a).filter p = [] := by
  rcases hcv : a.calcMode with - | cm
  · simp [calcModeAttrs, hcv]
  · by_cases hc : (!truthyStr a.keySplines && a.easing.isNone) = true <;>
      simp [calcModeAttrs, hcv, hc, hcm]

/-- A filter that rejects the repeatCount key drops that section. -/
theorem repeatAttrs_filter_nil (p : Attr → Bool) (a : AnimatedProperty)
    (hr : ∀ v, p ⟨"repeatCount", v⟩ = false) : (repeatAttrs a).filter p = [] := by
  rcases hrv : a.repeatCount with - | rc <;> simp [repeatAttrs, hrv, hr]

/-- A filter that rejects the fill key drops that section. -/
theorem fillAttrs_filter_nil (p : Attr → Bool) (a : AnimatedProperty)
    (hr : ∀ v, p ⟨"fill", v⟩ = false) : (fillAttrs a).filter p = [] := by
  rcases hfv : a.fill with - | f <;> simp [fillAttrs, hfv, hr]

/-- A filter that rejects the restart key drops that section. -/
theorem restartAttrs_filter_nil (p : Attr → Bool) (a : AnimatedProperty)
    (hr : ∀ v, p ⟨"restart", v⟩ = false) : (restartAttrs a).filter p = [] := by
  rcases hrv : a.restart with - | r <;> simp [restartAttrs, hrv, hr]

/-- The first-entry check `keyTimes[0] !== 0` passes exactly when the list
has a head whose value is 0. -/
theorem jsIndexNeq_zero_iff (kts : List JSNumber) :
    jsIndexNeq kts 0 0 = false ↔ kts.head?.map JSNumber.val = some 0 := by
  rcases kts with - | ⟨k, rest⟩ <;> simp [jsIndexNeq]

/-- The last-entry check `keyTimes[keyTimes.length - 1] !== 1` passes
exactly when the list has a last element whose value is 1. -/
theorem jsIndexNeq_last_iff (kts : List JSNumber) :
    jsIndexNeq kts (kts.length - 1) 1 = false ↔
      kts.getLast?.map JSNumber.val = some 1 := by
  rw [List.getLast?_eq_getElem?]
  unfold jsIndexNeq
  rcases h : kts[kts.length - 1]? with - | k <;> simp

/-- With `values` absent the whole values block is skipped and validation
reduces to the values-or-endpoints check. -/
theorem validateAnimation_values_none (property element : String) (a : AnimatedProperty)
    (hv : a.values = none) :
    validateAnimation property a element =
      if a.fromVal.isNone || a.toVal.isNone then
        .error ⟨.missingValuesOrEndpoints, property, element⟩
      else .ok () := by
  simp [validateAnimation, hv]

/-- With `values` and `keyTimes` present and the easing-length check
passing, validation reduces to the keyTimes checks in source order. -/
theorem validateAnimation_keyTimes_form (property element : String) (a : AnimatedProperty)
    (vs kts : List JSNumber) (hv : a.values = some vs) (hk : a.keyTimes = some kts)
    (hez : easingMismatch vs a.easing = false) :
    validateAnimation property a element =
      if kts.length ≠ vs.length then .error ⟨.keyTimesLengthMismatch, property, element⟩
      else
        match keyTimesLoop property element none kts with
        | .error err => .error err
        | .ok () =>
          if jsIndexNeq kts 0 0 then .error ⟨.keyTimesMustStartZero, property, element⟩
          else if jsIndexNeq kts (kts.length - 1) 1 then
            .error ⟨.keyTimesMustEndOne, property, element⟩
          else .ok () := by
  simp only [validateAnimation, hv, hk, hez, Bool.false_eq_true, if_false]
  by_cases hlen : kts.length ≠ vs.length
  · simp [hlen]
  · simp only [hlen, if_false]
    rcases hloop : keyTimesLoop property element none kts with e | ⟨⟩
    · simp
    · by_cases h0 : jsIndexNeq kts 0 0
      · simp [h0]
      · by_cases h1 : jsIndexNeq kts (kts.length - 1) 1 <;> simp [h0, h1]

/-- With `values` present, a failing easing-array length check rejects the
spec immediately, before any keyTimes check. -/
theorem validateAnimation_easing_mismatch (property element : String)
    (a : AnimatedProperty) (vs : List JSNumber) (hv : a.values = some vs)
    (hez : easingMismatch vs a.easing = true) :
    validateAnimation property a element =
      .error ⟨.easingLengthMismatch, property, element⟩ := by
  simp [validateAnimation, hv, hez]

/-- With `values` present, the easing check passing and no `keyTimes`,
validation succeeds whatever `from`, `to` and the length of `values` are. -/
theorem validateAnimation_values_noKeyTimes_ok (property element : String)
    (a : AnimatedProperty) (vs : List JSNumber) (hv : a.values = some vs)
    (hk : a.keyTimes = none) (hez : easingMismatch vs a.easing = false) :
    validateAnimation property a element = .ok () := by
  simp [validateAnimation, hv, hk, hez]

/-- With `values` present, every validation failure is one of the values
block's kinds: never the missing-values-or-endpoints failure, and not the
easing-length failure once the easing check passes. -/
theorem validateAnimation_values_some_error_kinds (property element : String)
    (a : AnimatedProperty) (vs : List JSNumber) (err : AnimationValidationError)
    (hv : a.values = some vs)
    (h : validateAnimation property a element = .error err) :
    err.kind ≠ .missingValuesOrEndpoints ∧
      (easingMismatch vs a.easing = false → err.kind ≠ .easingLengthMismatch) := by
  by_cases hez : easingMismatch vs a.easing = true
  · rw [validateAnimation_easing_mismatch property element a vs hv hez] at h
    injection h with h
    rw [← h]
    exact ⟨by simp, fun hfalse => by simp [hez] at hfalse⟩
  · have hez' : easingMismatch vs a.easing = false := by
      simpa using hez
    rcases hk : a.keyTimes with - | kts
    · rw [validateAnimation_values_noKeyTimes_ok property element a vs hv hk hez'] at h
      exact absurd h (by simp)
    · rw [validateAnimation_keyTimes_form property element a vs kts hv hk hez'] at h
      by_cases hlen : kts.length ≠ vs.length
      · rw [if_pos hlen] at h
        injection h with h
        rw [← h]
        exact ⟨by simp, fun _ => by simp⟩
      · rw [if_neg hlen] at h
        rcases hloop : keyTimesLoop property element none kts with e2 | ⟨⟩
        · rw [hloop] at h
          injection h with h
          rcases keyTimesLoop_error_kinds property element kts none e2 hloop with he2 | he2 <;>
            · rw [← h, he2]
              exact ⟨by simp, fun _ => by simp⟩
        · rw [hloop] at h
          by_cases h0 : jsIndexNeq kts 0 0
          · simp only [h0, if_true] at h
            injection h with h
            rw [← h]
            exact ⟨by simp, fun _ => by simp⟩
          · simp only [h0, Bool.false_eq_true, if_false] at h
            by_cases h1 : jsIndexNeq kts (kts.length - 1) 1
            · simp only [h1, if_true] at h
              injection h with h
              rw [← h]
              exact ⟨by simp, fun _ => by simp⟩
            · simp only [h1, Bool.false_eq_true, if_false] at h
              exact absurd h (by simp)

/-!
The claims.
-/

/-- C1: the compiler resolves a structured click trigger against the
animated owner element's identifier, not the trigger target's: with owner
identifier "rect1" and a trigger whose target node carries identifier
"btn1", the emitted begin attribute is "rect1.click", not "btn1.click"
as specified. -/
theorem smil_trigger_begin_uses_owner_identifier :
    (let config : SMILConfig :=
      { element := "rect", property := "width"
      , animation :=
          { id := some "anim1", fromVal := some ⟨0, "0"⟩, toVal := some ⟨1, "1"⟩
          , duration := "1s", begin := some (.trigger ⟨.click, "btn1"⟩) }
      , elementId := some "rect1" }
     (config.animation.begin = some (.trigger ⟨.click, "btn1"⟩))
     ∧ config.elementId = some "rect1"
     ∧ generateSMILAnimation config =
        .ok "<animate id=\"anim1\" attributeName=\"width\" dur=\"1s\" from=\"0\" to=\"1\" begin=\"rect1.click\" />") :=
  ⟨rfl, rfl, rfl⟩

/-- C2 counterexample: a valid spec supplying no id compiles to a directive
whose id attribute is the constant literal "undefined" - not a
process-unique, monotonically increasing generated token (the compiler is a
pure function of the spec, so a second compilation yields the same
directive). -/
theorem smil_no_id_yields_literal_undefined :
    generateSMILAnimation
      { element := "rect", property := "x"
      , animation := { fromVal := some ⟨0, "0"⟩, toVal := some ⟨1, "1"⟩, duration := "1s" } } =
      .ok "<animate id=\"undefined\" attributeName=\"x\" dur=\"1s\" from=\"0\" to=\"1\" />" :=
  rfl

/-- C2 amended: the compiled directive's first attribute is the id; it
equals the spec-supplied id when one is present and the literal text
"undefined" when none is. -/
theorem smil_id_attribute_spec (config : SMILConfig) :
    (∀ i, config.animation.id = some i →
      (smilAttributes config).head? = some ⟨"id", i⟩)
    ∧ (config.animation.id = none →
      (smilAttributes config).head? = some ⟨"id", "undefined"⟩) := by
  constructor
  · intro i hi
    simp [smilAttributes, hi, jsStr]
  · intro hi
    simp [smilAttributes, hi, jsStr]

/-- C3 counterexample: a spec carrying both a values array and a complete
from/to pair passes validation - the claimed exclusivity rejection does not
exist. -/
theorem validateAnimation_accepts_values_with_endpoints :
    validateAnimation "x"
      { values := some [⟨0, "0"⟩, ⟨100, "100"⟩]
      , fromVal := some ⟨1, "1"⟩, toVal := some ⟨2, "2"⟩, duration := "1s" }
      "rect" = .ok () :=
  rfl

/-- C3 amended: the missing-values-or-endpoints failure occurs exactly when
values is absent and from or to is undefined; a spec with both values and a
complete from/to pair is not rejected for exclusivity. -/
theorem validateAnimation_missing_endpoints_iff (property element : String)
    (a : AnimatedProperty) :
    validateAnimation property a element =
        .error ⟨.missingValuesOrEndpoints, property, element⟩
      ↔ (a.values = none ∧ (a.fromVal = none ∨ a.toVal = none)) := by
  rcases hv : a.values with - | vs
  · rw [validateAnimation_values_none property element a hv]
    by_cases hft : (a.fromVal.isNone || a.toVal.isNone) = true
    · rw [if_pos hft]
      rw [Bool.or_eq_true, Option.isNone_iff_eq_none, Option.isNone_iff_eq_none] at hft
      simp [hft]
    · rw [if_neg hft]
      rw [Bool.or_eq_true, Option.isNone_iff_eq_none, Option.isNone_iff_eq_none] at hft
      simp [hft]
  · constructor
    · intro h
      have hkind :=
        (validateAnimation_values_some_error_kinds property element a vs _ hv h).1
      simp at hkind
    · rintro ⟨hnone, -⟩
      exact absurd hnone (by simp)

/-- C4: the round-trip spec with values 0,50,100, keyTimes 0,0.5,1 and
linear easing for property x on a rect validates, and compiles to a
directive with values "0;50;100", keyTimes "0;0.5;1", keySplines "0 0 1 1"
and calcMode "spline". -/
theorem smil_round_trip_values_keytimes_linear :
    (let config : SMILConfig :=
      { element := "rect", property := "x"
      , animation :=
          { id := some "a4"
          , values := some [⟨0, "0"⟩, ⟨50, "50"⟩, ⟨100, "100"⟩]
          , keyTimes := some [⟨0, "0"⟩, ⟨mkRat 1 2, "0.5"⟩, ⟨1, "1"⟩]
          , easing := some (.single .linear), duration := "1s" } }
     validateAnimation config.property config.animation config.element = .ok ()
     ∧ smilAttributes config =
        [⟨"id", "a4"⟩, ⟨"attributeName", "x"⟩, ⟨"dur", "1s"⟩,
         ⟨"values", "0;50;100"⟩, ⟨"keyTimes", "0;0.5;1"⟩,
         ⟨"keySplines", "0 0 1 1"⟩, ⟨"calcMode", "spline"⟩]
     ∧ generateSMILAnimation config =
        .ok "<animate id=\"a4\" attributeName=\"x\" dur=\"1s\" values=\"0;50;100\" keyTimes=\"0;0.5;1\" keySplines=\"0 0 1 1\" calcMode=\"spline\" />") := by
  refine ⟨?_, ?_, ?_⟩ <;> rfl

/-- C9 counterexample: a spec whose values array has length one, with both
from and to undefined, passes validation and compiles - no minimum values
length is enforced. -/
theorem validateAnimation_accepts_singleton_values :
    validateAnimation "x" { values := some [⟨5, "5"⟩], duration := "1s" } "rect" = .ok ()
    ∧ validateAnimation "x" { values := some [], duration := "1s" } "rect" = .ok () :=
  ⟨rfl, rfl⟩

/-- C9 amended: validation imposes no lower bound on the length of values;
with easing and keyTimes absent, a values array of length at most one is
accepted whatever from and to are, and compilation succeeds. -/
theorem validateAnimation_no_min_values_length (property element : String)
    (a : AnimatedProperty) (vs : List JSNumber) (hv : a.values = some vs)
    (_hlen : vs.length ≤ 1) (heas : a.easing = none) (hkt : a.keyTimes = none) :
    validateAnimation property a element = .ok ()
    ∧ ∃ s, generateSMILAnimation
        { element := element, property := property, animation := a, elementId := none } =
          .ok s := by
  have hez : easingMismatch vs a.easing = false := by
    rw [heas]; rfl
  have hok := validateAnimation_values_noKeyTimes_ok property element a vs hv hkt hez
  refine ⟨hok, "<animate " ++ String.intercalate " "
      ((smilAttributes
        { element := element, property := property, animation := a, elementId := none }).map
          Attr.render) ++ " />", ?_⟩
  simp [generateSMILAnimation, hok]

/-- C9 witness: the amended statement at a concrete singleton values
array. -/
theorem validateAnimation_no_min_values_length_witness :
    validateAnimation "y" { values := some [⟨5, "5"⟩], duration := "2s" } "circle" = .ok ()
    ∧ ∃ s, generateSMILAnimation
        { element := "circle", property := "y"
        , animation := { values := some [⟨5, "5"⟩], duration := "2s" }, elementId := none } =
          .ok s :=
  validateAnimation_no_min_values_length "y" "circle" _ [⟨5, "5"⟩] rfl (by decide) rfl rfl

/-- C6 counterexample: with values and keyTimes both present but empty, no
listed keyTimes condition holds (the lengths agree, every entry is in range
and ascending, vacuously), yet validation fails: the first-entry check
compares the missing entry (undefined) against 0 and reports
keytimes-must-start-zero. -/
theorem validateAnimation_empty_keytimes_fails :
    validateAnimation "x" { values := some [], keyTimes := some [], duration := "1s" } "rect"
        = .error ⟨.keyTimesMustStartZero, "x", "rect"⟩
    ∧ ([] : List JSNumber).length = (([] : List JSNumber)).length
    ∧ (∀ k ∈ ([] : List JSNumber), 0 ≤ k.val ∧ k.val ≤ 1)
    ∧ ascendsFrom none ([] : List JSNumber) = true :=
  ⟨rfl, rfl, by simp, rfl⟩

/-- C6 amended: with values and keyTimes present and the easing check
passing, validation succeeds exactly when the lengths agree, every keyTimes
entry lies in [0,1], the entries are strictly ascending, the list starts
with value 0 and ends with value 1 (so an empty keyTimes always fails:
it has no starting 0); and each keyTimes failure kind is sound for its
condition. -/
theorem validateAnimation_keytimes_characterization (property element : String)
    (a : AnimatedProperty) (vs kts : List JSNumber)
    (hv : a.values = some vs) (hk : a.keyTimes = some kts)
    (hez : easingMismatch vs a.easing = false) :
    (validateAnimation property a element = .ok ()
      ↔ (kts.length = vs.length
          ∧ (∀ k ∈ kts, 0 ≤ k.val ∧ k.val ≤ 1)
          ∧ ascendsFrom none kts = true
          ∧ kts.head?.map JSNumber.val = some 0
          ∧ kts.getLast?.map JSNumber.val = some 1))
    ∧ (∀ err, validateAnimation property a element = .error err →
        (err.kind = .keyTimesLengthMismatch → kts.length ≠ vs.length)
        ∧ (err.kind = .keyTimesOutOfRange → ∃ k ∈ kts, k.val < 0 ∨ 1 < k.val)
        ∧ (err.kind = .keyTimesNotAscending → ascendsFrom none kts = false)
        ∧ (err.kind = .keyTimesMustStartZero → ¬ kts.head?.map JSNumber.val = some 0)
        ∧ (err.kind = .keyTimesMustEndOne → ¬ kts.getLast?.map JSNumber.val = some 1)) := by
  rw [validateAnimation_keyTimes_form property element a vs kts hv hk hez]
  constructor
  · by_cases hlen : kts.length ≠ vs.length
    · rw [if_pos hlen]
      simp [hlen]
    · rw [if_neg hlen]
      have hleneq : kts.length = vs.length := not_ne_iff.mp hlen
      rcases hloop : keyTimesLoop property element none kts with e2 | ⟨⟩
      · constructor
        · intro h; exact absurd h (by simp)
        · rintro ⟨-, hall, hasc, -, -⟩
          have hok := (keyTimesLoop_ok_iff property element kts none).mpr ⟨hall, hasc⟩
          rw [hok] at hloop
          exact absurd hloop (by simp)
      · obtain ⟨hall, hasc⟩ := (keyTimesLoop_ok_iff property element kts none).mp hloop
        by_cases h0 : jsIndexNeq kts 0 0 = true
        · have hhead : ¬ kts.head?.map JSNumber.val = some 0 := by
            intro hh
            rw [(jsIndexNeq_zero_iff kts).mpr hh] at h0
            exact absurd h0 (by simp)
          simp only [h0, if_true]
          constructor
          · intro h; exact absurd h (by simp)
          · rintro ⟨-, -, -, hh, -⟩; exact absurd hh hhead
        · have h0' : jsIndexNeq kts 0 0 = false := by simpa using h0
          have hhead := (jsIndexNeq_zero_iff kts).mp h0'
          simp only [h0', Bool.false_eq_true, if_false]
          by_cases h1 : jsIndexNeq kts (kts.length - 1) 1 = true
          · have hlast : ¬ kts.getLast?.map JSNumber.val = some 1 := by
              intro hh
              rw [(jsIndexNeq_last_iff kts).mpr hh] at h1
              exact absurd h1 (by simp)
            simp only [h1, if_true]
            constructor
            · intro h; exact absurd h (by simp)
            · rintro ⟨-, -, -, -, hh⟩; exact absurd hh hlast
          · have h1' : jsIndexNeq kts (kts.length - 1) 1 = false := by simpa using h1
            have hlast := (jsIndexNeq_last_iff kts).mp h1'
            simp only [h1', Bool.false_eq_true, if_false]
            exact ⟨fun _ => ⟨hleneq, hall, hasc, hhead, hlast⟩, fun _ => trivial⟩
  · intro err herr
    by_cases hlen : kts.length ≠ vs.length
    · rw [if_pos hlen] at herr
      injection herr with h
      rw [← h]
      refine ⟨fun _ => hlen, ?_, ?_, ?_, ?_⟩ <;> · intro hkind; exact absurd hkind (by simp)
    · rw [if_neg hlen] at herr
      rcases hloop : keyTimesLoop property element none kts with e2 | ⟨⟩
      · rw [hloop] at herr
        injection herr with h
        rcases keyTimesLoop_error_kinds property element kts none e2 hloop with he2 | he2
        · rw [he2] at hloop h
          rw [← h]
          refine ⟨?_, ?_, ?_, ?_, ?_⟩
          · intro hkind; exact absurd hkind (by simp)
          · intro _hk
            exact keyTimesLoop_outOfRange_sound property element kts none hloop
          · intro hkind; exact absurd hkind (by simp)
          · intro hkind; exact absurd hkind (by simp)
          · intro hkind; exact absurd hkind (by simp)
        · rw [he2] at hloop h
          rw [← h]
          refine ⟨?_, ?_, ?_, ?_, ?_⟩
          · intro hkind; exact absurd hkind (by simp)
          · intro hkind; exact absurd hkind (by simp)
          · intro _hk
            exact keyTimesLoop_notAscending_sound property element kts none hloop
          · intro hkind; exact absurd hkind (by simp)
          · intro hkind; exact absurd hkind (by simp)
      · rw [hloop] at herr
        by_cases h0 : jsIndexNeq kts 0 0 = true
        · simp only [h0, if_true] at herr
          injection herr with h
          rw [← h]
          refine ⟨?_, ?_, ?_, ?_, ?_⟩
          · intro hkind; exact absurd hkind (by simp)
          · intro hkind; exact absurd hkind (by simp)
          · intro hkind; exact absurd hkind (by simp)
          · intro _hk hh
            rw [(jsIndexNeq_zero_iff kts).mpr hh] at h0
            exact absurd h0 (by simp)
          · intro hkind; exact absurd hkind (by simp)
        · have h0' : jsIndexNeq kts 0 0 = false := by simpa using h0
          simp only [h0', Bool.false_eq_true, if_false] at herr
          by_cases h1 : jsIndexNeq kts (kts.length - 1) 1 = true
          · simp only [h1, if_true] at herr
            injection herr with h
            rw [← h]
            refine ⟨?_, ?_, ?_, ?_, ?_⟩
            · intro hkind; exact absurd hkind (by simp)
            · intro hkind; exact absurd hkind (by simp)
            · intro hkind; exact absurd hkind (by simp)
            · intro hkind; exact absurd hkind (by simp)
            · intro _hk hh
              rw [(jsIndexNeq_last_iff kts).mpr hh] at h1
              exact absurd h1 (by simp)
          · have h1' : jsIndexNeq kts (kts.length - 1) 1 = false := by simpa using h1
            simp only [h1', Bool.false_eq_true, if_false] at herr
            exact absurd herr (by simp)

/-- C6 witness: the characterization at a concrete two-entry keyTimes list,
deriving that the spec validates. -/
theorem validateAnimation_keytimes_characterization_witness :
    validateAnimation "x"
      { values := some [⟨0, "0"⟩, ⟨1, "1"⟩], keyTimes := some [⟨0, "0"⟩, ⟨1, "1"⟩]
      , duration := "1s" } "rect" = .ok () :=
  (validateAnimation_keytimes_characterization "x" "rect"
    { values := some [⟨0, "0"⟩, ⟨1, "1"⟩], keyTimes := some [⟨0, "0"⟩, ⟨1, "1"⟩]
    , duration := "1s" }
    [⟨0, "0"⟩, ⟨1, "1"⟩] [⟨0, "0"⟩, ⟨1, "1"⟩] rfl rfl rfl).1.mpr
    ⟨by decide, by decide, by decide, by decide, by decide⟩

/-- A filter that rejects the id, attributeName and dur keys drops the three
base attributes. -/
theorem smil_base_filter_nil (p : Attr → Bool) (v1 v2 v3 : String)
    (h1 : p ⟨"id", v1⟩ = false) (h2 : p ⟨"attributeName", v2⟩ = false)
    (h3 : p ⟨"dur", v3⟩ = false) :
    ([⟨"id", v1⟩, ⟨"attributeName", v2⟩, ⟨"dur", v3⟩] : List Attr).filter p = [] := by
  simp [List.filter, h1, h2, h3]

/-- C5: for a valid spec the interpolation attributes of the compiled
directive follow exactly one path: a truthy raw keySplines is emitted
verbatim with calcMode spline (the easing-derived value is not emitted);
otherwise a supplied easing is converted and emitted with calcMode spline;
otherwise a supplied explicit calcMode is emitted unconverted; otherwise
nothing. -/
theorem smil_interpolation_paths_exclusive (config : SMILConfig)
    (_hvalid : validateAnimation config.property config.animation config.element = .ok ()) :
    (smilAttributes config).filter interpAttr =
      (if truthyStr config.animation.keySplines then
        [⟨"keySplines", config.animation.keySplines.getD ""⟩, ⟨"calcMode", "spline"⟩]
      else
        match config.animation.easing with
        | some e => [⟨"keySplines", easingToKeySplines e⟩, ⟨"calcMode", "spline"⟩]
        | none =>
          match config.animation.calcMode with
          | some cm => [⟨"calcMode", cm.str⟩]
          | none => []) := by
  rw [smilAttributes]
  simp only [List.filter_append]
  rw [smil_base_filter_nil interpAttr _ _ _ rfl rfl rfl,
    valuesAttrs_filter_nil interpAttr _ (fun v => rfl) (fun v => rfl) (fun v => rfl),
    beginAttrs_filter_nil interpAttr _ (fun v => rfl),
    keyTimesAttrs_filter_nil interpAttr _ (fun v => rfl),
    repeatAttrs_filter_nil interpAttr _ (fun v => rfl),
    fillAttrs_filter_nil interpAttr _ (fun v => rfl),
    restartAttrs_filter_nil interpAttr _ (fun v => rfl)]
  simp only [List.nil_append, List.append_nil]
  by_cases hks : truthyStr config.animation.keySplines = true
  · rcases hcv : config.animation.calcMode with - | cm <;>
      simp [splineAttrs, calcModeAttrs, hks, hcv, interpAttr, List.filter]
  · have hks' : truthyStr config.animation.keySplines = false := by simpa using hks
    rcases hev : config.animation.easing with - | e
    · rcases hcv : config.animation.calcMode with - | cm <;>
        simp [splineAttrs, calcModeAttrs, hks', hev, hcv, interpAttr, List.filter]
    · rcases hcv : config.animation.calcMode with - | cm <;>
        simp [splineAttrs, calcModeAttrs, hks', hev, hcv, interpAttr, List.filter]

/-- C5 witness: with both a raw keySplines and an easing supplied, the
emitted interpolation attributes are the raw keySplines and calcMode
spline. -/
theorem smil_interpolation_paths_exclusive_witness :
    (smilAttributes
      { element := "rect", property := "x"
      , animation :=
          { fromVal := some ⟨0, "0"⟩, toVal := some ⟨1, "1"⟩, duration := "1s"
          , keySplines := some "0.1 0.2 0.3 0.4", easing := some (.single .ease)
          , calcMode := some .linear } }).filter interpAttr =
      [⟨"keySplines", "0.1 0.2 0.3 0.4"⟩, ⟨"calcMode", "spline"⟩] :=
  smil_interpolation_paths_exclusive
    { element := "rect", property := "x"
    , animation :=
        { fromVal := some ⟨0, "0"⟩, toVal := some ⟨1, "1"⟩, duration := "1s"
        , keySplines := some "0.1 0.2 0.3 0.4", easing := some (.single .ease)
        , calcMode := some .linear } } rfl

/-- C7: with values of length n and easing given as an array, a length
other than n-1 fails validation with the easing-length-mismatch failure
(n-1 computed over the integers); with length exactly n-1 that check
passes - no failure of that kind can be raised - and, keySplines being
absent or empty, the compiled keySplines attribute is each curve's
control-point string joined in order with "; ". -/
theorem validateAnimation_easing_length (config : SMILConfig) (vs : List JSNumber)
    (es : List EasingType) (hv : config.animation.values = some vs)
    (he : config.animation.easing = some (.arr es)) :
    ((es.length : Int) ≠ (vs.length : Int) - 1 →
      validateAnimation config.property config.animation config.element =
        .error ⟨.easingLengthMismatch, config.property, config.element⟩)
    ∧ ((es.length : Int) = (vs.length : Int) - 1 →
        (∀ err, validateAnimation config.property config.animation config.element = .error err →
          err.kind ≠ .easingLengthMismatch)
        ∧ (truthyStr config.animation.keySplines = false →
          (smilAttributes config).filter ( Attr.hasKey "keySplines") =
            [⟨"keySplines", String.intercalate "; " (es.map EASING_MAP)⟩])) := by
  constructor
  · intro hne
    have hez : easingMismatch vs config.animation.easing = true := by
      rw [he]; simp [easingMismatch, hne]
    exact validateAnimation_easing_mismatch _ _ _ vs hv hez
  · intro heq
    have hez : easingMismatch vs config.animation.easing = false := by
      rw [he]; simp [easingMismatch, heq]
    constructor
    · intro err herr
      exact (validateAnimation_values_some_error_kinds _ _ _ vs err hv herr).2 hez
    · intro hks
      rw [smilAttributes]
      simp only [List.filter_append]
      rw [smil_base_filter_nil ( Attr.hasKey "keySplines") _ _ _ rfl rfl rfl,
        valuesAttrs_filter_nil ( Attr.hasKey "keySplines") _
          (fun v => rfl) (fun v => rfl) (fun v => rfl),
        beginAttrs_filter_nil ( Attr.hasKey "keySplines") _ (fun v => rfl),
        keyTimesAttrs_filter_nil ( Attr.hasKey "keySplines") _ (fun v => rfl),
        calcModeAttrs_filter_nil ( Attr.hasKey "keySplines") _ (fun v => rfl),
        repeatAttrs_filter_nil ( Attr.hasKey "keySplines") _ (fun v => rfl),
        fillAttrs_filter_nil ( Attr.hasKey "keySplines") _ (fun v => rfl),
        restartAttrs_filter_nil ( Attr.hasKey "keySplines") _ (fun v => rfl)]
      simp only [List.nil_append, List.append_nil]
      simp [splineAttrs, hks, he, easingToKeySplines, Attr.hasKey, List.filter]

/-- C7 witness: three values with the easing array ease, bounce emit the
two curves joined with "; ". -/
theorem validateAnimation_easing_length_witness :
    (smilAttributes
      { element := "rect", property := "x"
      , animation :=
          { values := some [⟨0, "0"⟩, ⟨50, "50"⟩, ⟨100, "100"⟩]
          , easing := some (.arr [.ease, .bounce]), duration := "1s" } }).filter
        ( Attr.hasKey "keySplines") =
      [⟨"keySplines", "0.25 0.1 0.25 1; 0.68 -0.55 0.265 1.55"⟩] :=
  ((validateAnimation_easing_length
    { element := "rect", property := "x"
    , animation :=
        { values := some [⟨0, "0"⟩, ⟨50, "50"⟩, ⟨100, "100"⟩]
        , easing := some (.arr [.ease, .bounce]), duration := "1s" } }
    [⟨0, "0"⟩, ⟨50, "50"⟩, ⟨100, "100"⟩] [.ease, .bounce] rfl rfl).2 (by decide)).2 rfl

/-- C10: when values is absent and a complete from/to pair is supplied,
validation performs no keyTimes checks at all - any keyTimes list passes -
and the compiled directive carries that list verbatim, joined by ";". -/
theorem smil_from_to_skips_keytimes_validation (config : SMILConfig) (f t : JSNumber)
    (kts : List JSNumber) (hv : config.animation.values = none)
    (hf : config.animation.fromVal = some f) (ht : config.animation.toVal = some t)
    (hk : config.animation.keyTimes = some kts) :
    validateAnimation config.property config.animation config.element = .ok ()
    ∧ (smilAttributes config).filter ( Attr.hasKey "keyTimes") =
        [⟨"keyTimes", joinNums kts⟩] := by
  constructor
  · rw [validateAnimation_values_none _ _ _ hv]
    simp [hf, ht]
  · rw [smilAttributes]
    simp only [List.filter_append]
    rw [smil_base_filter_nil ( Attr.hasKey "keyTimes") _ _ _ rfl rfl rfl,
      valuesAttrs_filter_nil ( Attr.hasKey "keyTimes") _
        (fun v => rfl) (fun v => rfl) (fun v => rfl),
      beginAttrs_filter_nil ( Attr.hasKey "keyTimes") _ (fun v => rfl),
      splineAttrs_filter_nil ( Attr.hasKey "keyTimes") _ (fun v => rfl) (fun v => rfl),
      calcModeAttrs_filter_nil ( Attr.hasKey "keyTimes") _ (fun v => rfl),
      repeatAttrs_filter_nil ( Attr.hasKey "keyTimes") _ (fun v => rfl),
      fillAttrs_filter_nil ( Attr.hasKey "keyTimes") _ (fun v => rfl),
      restartAttrs_filter_nil ( Attr.hasKey "keyTimes") _ (fun v => rfl)]
    simp only [List.nil_append, List.append_nil]
    simp [keyTimesAttrs, hk, Attr.hasKey, List.filter]

/-- C10 witness: a keyTimes list that is out of range, not ascending and
has wrong endpoints still validates and is emitted verbatim. -/
theorem smil_from_to_skips_keytimes_validation_witness :
    validateAnimation "x"
      { fromVal := some ⟨0, "0"⟩, toVal := some ⟨1, "1"⟩, duration := "1s"
      , keyTimes := some [⟨mkRat 1 2, "0.5"⟩, ⟨mkRat 1 5, "0.2"⟩, ⟨3, "3"⟩] } "rect" = .ok ()
    ∧ (smilAttributes
        { element := "rect", property := "x"
        , animation :=
            { fromVal := some ⟨0, "0"⟩, toVal := some ⟨1, "1"⟩, duration := "1s"
            , keyTimes := some [⟨mkRat 1 2, "0.5"⟩, ⟨mkRat 1 5, "0.2"⟩, ⟨3, "3"⟩] } }).filter
          ( Attr.hasKey "keyTimes") =
      [⟨"keyTimes", "0.5;0.2;3"⟩] :=
  smil_from_to_skips_keytimes_validation
    { element := "rect", property := "x"
    , animation :=
        { fromVal := some ⟨0, "0"⟩, toVal := some ⟨1, "1"⟩, duration := "1s"
        , keyTimes := some [⟨mkRat 1 2, "0.5"⟩, ⟨mkRat 1 5, "0.2"⟩, ⟨3, "3"⟩] } }
    ⟨0, "0"⟩ ⟨1, "1"⟩ [⟨mkRat 1 2, "0.5"⟩, ⟨mkRat 1 5, "0.2"⟩, ⟨3, "3"⟩] rfl rfl rfl rfl

/-- C8: the aggregator either returns one directive string per entry in
iteration order, or - at the first entry whose compilation fails - aborts
the remainder with no partial results and surfaces an
AnimationValidationError: the failing entry's error is passed through when
it already is one, and otherwise is re-wrapped into one carrying that
entry's property name and element tag. -/
theorem generateElementAnimations_atomic (element elementId : String)
    (animations : List (String × AnimatedProperty)) :
    (∃ l, generateElementAnimations element animations elementId = .ok l
        ∧ List.Forall₂ (fun pa s =>
            generateSMILAnimation ⟨element, pa.1, pa.2, some elementId⟩ = .ok s)
          animations l)
    ∨ (∃ pre property animation rest e ve,
        animations = pre ++ (property, animation) :: rest
        ∧ (∀ pa ∈ pre, ∃ s, generateSMILAnimation ⟨element, pa.1, pa.2, some elementId⟩ = .ok s)
        ∧ generateSMILAnimation ⟨element, property, animation, some elementId⟩ = .error e
        ∧ generateElementAnimations element animations elementId = .error (.validation ve)
        ∧ (e = .validation ve
            ∨ ∃ m, e = .other m ∧ ve = ⟨.generationFailure, property, element⟩)) := by
  induction animations with
  | nil => exact Or.inl ⟨[], rfl, List.Forall₂.nil⟩
  | cons hd rest ih =>
    obtain ⟨property, animation⟩ := hd
    rcases hgen : generateSMILAnimation ⟨element, property, animation, some elementId⟩ with e | s
    · refine Or.inr ⟨[], property, animation, rest, e, wrapAggError property element e,
        by simp, by simp, hgen, ?_, ?_⟩
      · simp [generateElementAnimations, hgen]
      · rcases e with ve | m
        · exact Or.inl (by simp [wrapAggError])
        · exact Or.inr ⟨m, rfl, by simp [wrapAggError]⟩
    · rcases ih with ⟨l, hok, hfa⟩ | ⟨pre, p2, a2, rest2, e2, ve2, heq, hpre, herr2, hagg, hwrap⟩
      · refine Or.inl ⟨s :: l, ?_, List.Forall₂.cons hgen hfa⟩
        simp [generateElementAnimations, hgen, hok]
      · refine Or.inr ⟨(property, animation) :: pre, p2, a2, rest2, e2, ve2,
          by simp [heq], ?_, herr2, ?_, hwrap⟩
        · rintro pa hpa
          rcases List.mem_cons.mp hpa with rfl | hmem
          · exact ⟨s, hgen⟩
          · exact hpre pa hmem
        · simp [generateElementAnimations, hgen, hagg]
